import Mathlib

/-!
Shallow embedding of the `codeAgentFunction` Inngest workflow
(`src/unnamed/part_002`) of the codeassist repository, together with the
pieces of state and persistence it manipulates, and proofs of the spec's
claims about it.

The JS `Record<string, string>` file mapping is modelled as an association
list with unique keys kept in insertion order, matching JS object key
semantics (assignment to an existing key keeps its position, a new key is
appended).
-/

namespace CodeAssist

/-- The shared agent state (`interface AgentState`): a summary string, empty
until the agent signals completion, and a path-to-content file mapping
accumulated by tool calls. -/
structure AgentState where
  summary : String
  files : List (String × String)
deriving Repr, DecidableEq

/-- JS object read `files[p]`. -/
def getFile (fs : List (String × String)) (p : String) : Option String :=
  (fs.find? (fun e => e.1 == p)).map (fun e => e.2)

/-- JS object assignment `files[p] = c`: update the entry if the key exists,
keeping its position, otherwise append a new entry at the end. -/
def setFile (fs : List (String × String)) (p c : String) : List (String × String) :=
  if fs.any (fun e => e.1 == p) then
    fs.map (fun e => if e.1 == p then (p, c) else e)
  else
    fs ++ [(p, c)]

/-- The loop body of the `createOrUpdateFiles` tool handler
(`src/unnamed/part_002`, lines 116-140): for each `(path, content)` pair in
the call, write the file to the sandbox and set
`currentFiles[file.path] = file.content`; the resulting object is stored
back into `network.state.data.files`. -/
def writeFiles (fs : List (String × String)) (ws : List (String × String)) :
    List (String × String) :=
  ws.foldl (fun acc w => setFile acc w.1 w.2) fs

/-- Content of the last write to path `p` in the argument list `ws` of a
`createOrUpdateFiles` call, if `p` is written at all. -/
def lastWrite : List (String × String) → String → Option String
  | [], _ => none
  | w :: ws, p =>
    match lastWrite ws p with
    | some c => some c
    | none => if w.1 == p then some w.2 else none

/-- The result of a sandbox shell command (`sandbox.commands.run`): the
relevant field is its standard output. -/
structure CommandResult where
  stdout : String
deriving Repr, DecidableEq

/-- The `terminal` tool handler (`src/unnamed/part_002`, lines 99-114): the
sandbox command either succeeds with a result or raises an exception; the
`try/catch` turns the success into `result.stdout` and any exception `e`
into the string `Command failed: ${e}`. -/
def terminalHandler (outcome : Except String CommandResult) : String :=
  match outcome with
  | Except.ok r => r.stdout
  | Except.error e => "Command failed: " ++ e

/-- A persisted message row fetched from the database
(`prisma.message.findMany`). -/
structure DbMessage where
  content : String
  role : String
  createdAt : Nat
deriving Repr, DecidableEq

/-- An agent-kit context message as built by the `get-previous-messages`
step. -/
structure ChatMessage where
  type : String
  role : String
  content : String
deriving Repr, DecidableEq

/-- The per-record mapping of the `get-previous-messages` step
(`src/unnamed/part_002`, lines 77-83): a text message whose role is
`assistant` when the stored role is `ASSISTANT` and `user` otherwise. -/
def formatMessage (m : DbMessage) : ChatMessage :=
  { type := "text"
    role := if m.role == "ASSISTANT" then "assistant" else "user"
    content := m.content }

/-- The database fetch of the `get-previous-messages` step: the rows for the
project ordered by `createdAt` descending, with `take: 10`. The argument is
the full descending-ordered row list; the query keeps the first 10. -/
def fetchedMessages (db : List DbMessage) : List DbMessage :=
  db.take 10

/-- The `get-previous-messages` step (`src/unnamed/part_002`, lines 69-86):
map each fetched row to a text context message, then reverse the list into
chronological (oldest first) order. -/
def getPreviousMessages (db : List DbMessage) : List ChatMessage :=
  ((fetchedMessages db).map formatMessage).reverse

/-- The single agent configured in the network (`agents: [codeAgent]`). -/
inductive Agent where
  | codeAgent
deriving Repr, DecidableEq

/-- The network router (`src/unnamed/part_002`, lines 191-194): if the
shared summary is non-empty (truthy) return no next agent, otherwise select
`codeAgent` again. -/
def router (st : AgentState) : Option Agent :=
  if st.summary ≠ "" then none else some Agent.codeAgent

/-- Modelled from the spec: `network.run` with `maxIter` lives in the
external `@inngest/agent-kit` dependency, so its loop is taken from the
spec's state machine (section 4.2): once per iteration evaluate the router;
if it yields no next actor stop (completed), otherwise run the selected
agent's turn and continue, stopping in any case when the iteration cap is
exhausted (capped). The first component of the result is the final state,
the second the number of agent turns performed. The agent's own turn is an
arbitrary state transformer, since it is an LLM call. -/
def networkLoop (agentTurn : AgentState → AgentState) :
    Nat → AgentState → AgentState × Nat
  | 0, st => (st, 0)
  | n + 1, st =>
    match router st with
    | none => (st, 0)
    | some _ =>
      let r := networkLoop agentTurn n (agentTurn st)
      (r.1, r.2 + 1)

/-- A persisted fragment (`fragment: { create: ... }`): sandbox URL, title
and the final file mapping. -/
structure Fragment where
  sandboxUrl : String
  title : String
  files : List (String × String)
deriving Repr, DecidableEq

/-- A persisted message as created by the `save-result` step. -/
structure MessageRecord where
  projectId : String
  content : String
  role : String
  type : String
  fragment : Option Fragment
deriving Repr, DecidableEq

/-- The failure classification (`src/unnamed/part_002`, lines 223-225):
`!result.state.data.summary || Object.keys(result.state.data.files || {}).length === 0`. -/
def isError (st : AgentState) : Bool :=
  st.summary == "" || st.files.isEmpty

/-- The `save-result` step (`src/unnamed/part_002`, lines 232-259): on
classified failure persist a fixed error message with no fragment; on
success persist the parsed response text with a nested fragment carrying
the sandbox URL, the parsed title and the final file mapping. -/
def saveResult (projectId : String) (st : AgentState)
    (sandboxUrl responseText fragmentTitle : String) : MessageRecord :=
  if isError st then
    { projectId := projectId
      content := "Something went wrong. Please try again."
      role := "ASSISTANT"
      type := "ERROR"
      fragment := none }
  else
    { projectId := projectId
      content := responseText
      role := "ASSISTANT"
      type := "RESULT"
      fragment := some
        { sandboxUrl := sandboxUrl
          title := fragmentTitle
          files := st.files } }

/-- The `get-sandbox-url` step (`src/unnamed/part_002`, lines 227-230): the
template literal `https:\\${host}`, in which `\\` denotes one backslash
character, prepended to the sandbox host for port 3000. -/
def sandboxUrl (host : String) : String :=
  "https:\\" ++ host

/-- The workflow's return value (`src/unnamed/part_002`, lines 261-266):
`{ url, title: "Fragment", files, summary }`, built unconditionally from
the final agent state and the sandbox URL. -/
structure WorkflowResult where
  url : String
  title : String
  files : List (String × String)
  summary : String
deriving Repr, DecidableEq

/-- Assembly of the workflow return value. -/
def workflowReturn (st : AgentState) (url : String) : WorkflowResult :=
  { url := url
    title := "Fragment"
    files := st.files
    summary := st.summary }

/-- The output of an auxiliary agent run, as consumed by `parseAgentOutput`:
either a plain string result or a tagged/structured envelope carrying the
same literal text. -/
inductive AgentOutput where
  | plain (text : String)
  | tagged (text : String)
deriving Repr, DecidableEq

/-- Modelled from the spec: `parseAgentOutput` is imported from
`./utils`, a repository file that is not under `src/`. The spec (section
4.3) says the shared extraction routine "must tolerate both plain text and
a tagged/structured envelope, returning the literal text in either case". -/
def parseAgentOutput : AgentOutput → String
  | AgentOutput.plain t => t
  | AgentOutput.tagged t => t

/-- The whole `codeAgentFunction` run after the sandbox is provisioned:
start from the empty state, run the bounded network loop with the
configured cap of 15, compute the sandbox URL, persist via `save-result`
and build the return value (`src/unnamed/part_002`, lines 90-266). The
agent's turn and the two auxiliary agents' parsed outputs are parameters,
since they are LLM calls. -/
def runWorkflow (projectId : String) (agentTurn : AgentState → AgentState)
    (host responseText fragmentTitle : String) :
    MessageRecord × WorkflowResult :=
  let st0 : AgentState := { summary := "", files := [] }
  let stf := (networkLoop agentTurn 15 st0).1
  let url := sandboxUrl host
  (saveResult projectId stf url responseText fragmentTitle,
   workflowReturn stf url)

/-! ### Helper lemmas -/

theorem getFile_cons (x : String × String) (l : List (String × String)) (q : String) :
    getFile (x :: l) q = if x.1 == q then some x.2 else getFile l q := by
  cases h : (x.1 == q) with
  | true => simp [getFile, List.find?_cons_of_pos, h]
  | false => simp [getFile, List.find?_cons_of_neg, h]

theorem getFile_map_update_eq (fs : List (String × String)) (p c : String)
    (h : fs.any (fun e => e.1 == p) = true) :
    getFile (fs.map (fun e => if e.1 == p then (p, c) else e)) p = some c := by
  induction fs with
  | nil => simp at h
  | cons e t ih =>
    rw [List.map_cons, getFile_cons]
    by_cases he : e.1 = p
    · rw [if_pos (beq_iff_eq.mpr he), if_pos (beq_iff_eq.mpr rfl)]
    · have hb : ¬ (e.1 == p) = true := by
        simp only [beq_iff_eq]
        exact he
      rw [if_neg hb, if_neg hb]
      have ht : t.any (fun x => x.1 == p) = true := by
        rcases List.any_eq_true.mp h with ⟨x, hx, hxp⟩
        rcases List.mem_cons.mp hx with rfl | hxt
        · exact absurd (beq_iff_eq.mp hxp) he
        · exact List.any_eq_true.mpr ⟨x, hxt, hxp⟩
      exact ih ht

theorem getFile_map_update_ne (fs : List (String × String)) (p c q : String)
    (hq : q ≠ p) :
    getFile (fs.map (fun e => if e.1 == p then (p, c) else e)) q = getFile fs q := by
  induction fs with
  | nil => rfl
  | cons e t ih =>
    rw [List.map_cons, getFile_cons, getFile_cons]
    by_cases he : e.1 = p
    · rw [if_pos (beq_iff_eq.mpr he)]
      have hpq : ¬ ((p, c).1 == q) = true := by
        simp only [beq_iff_eq]
        exact fun hc => hq hc.symm
      have heq : ¬ (e.1 == q) = true := by
        simp only [beq_iff_eq]
        exact fun hc => hq (hc.symm.trans he)
      rw [if_neg hpq, if_neg heq]
      exact ih
    · have hb : ¬ (e.1 == p) = true := by
        simp only [beq_iff_eq]
        exact he
      rw [if_neg hb]
      cases heq : (e.1 == q) with
      | true => simp
      | false => simpa using ih

theorem getFile_append_single (fs : List (String × String)) (p c q : String) :
    getFile (fs ++ [(p, c)]) q =
      match getFile fs q with
      | some v => some v
      | none => if p == q then some c else none := by
  induction fs with
  | nil =>
    rw [List.nil_append, getFile_cons]
    cases h : (p == q) with
    | true => simp [h, getFile]
    | false => simp [h, getFile]
  | cons e t ih =>
    rw [List.cons_append, getFile_cons, getFile_cons, ih]
    cases he : (e.1 == q) with
    | true => simp
    | false => simp

theorem getFile_eq_none_of_any_false (fs : List (String × String)) (p : String)
    (h : fs.any (fun e => e.1 == p) = false) : getFile fs p = none := by
  have hnone : fs.find? (fun e => e.1 == p) = none :=
    List.find?_eq_none.mpr fun x hx => by
      simpa using List.any_eq_false.mp h x hx
  simp [getFile, hnone]

/-- `setFile` behaves as a pointwise update under `getFile`. -/
theorem getFile_setFile (fs : List (String × String)) (p c q : String) :
    getFile (setFile fs p c) q = if q = p then some c else getFile fs q := by
  cases hany : fs.any (fun e => e.1 == p) with
  | true =>
    rw [setFile, if_pos hany]
    by_cases hq : q = p
    · subst hq
      rw [if_pos rfl]
      exact getFile_map_update_eq fs q c hany
    · rw [if_neg hq]
      exact getFile_map_update_ne fs p c q hq
  | false =>
    have hneg : ¬ (fs.any (fun e => e.1 == p)) = true := by simp [hany]
    rw [setFile, if_neg hneg, getFile_append_single]
    by_cases hq : q = p
    · subst hq
      rw [getFile_eq_none_of_any_false fs q hany, if_pos rfl]
      simp
    · rw [if_neg hq]
      have hpq : ¬ (p == q) = true := by
        simp only [beq_iff_eq]
        exact fun hc => hq hc.symm
      cases hg : getFile fs q with
      | some v => simp
      | none => simp [hpq]

theorem getFile_writeFiles (fs ws : List (String × String)) (p : String) :
    getFile (writeFiles fs ws) p =
      match lastWrite ws p with
      | some c => some c
      | none => getFile fs p := by
  induction ws generalizing fs with
  | nil => simp [writeFiles, lastWrite]
  | cons w ws ih =>
    have step : writeFiles fs (w :: ws) = writeFiles (setFile fs w.1 w.2) ws := rfl
    rw [step, ih]
    cases hlw : lastWrite ws p with
    | some c => simp [lastWrite, hlw]
    | none =>
      simp only [lastWrite, hlw]
      rw [getFile_setFile]
      by_cases hp : p = w.1
      · simp [hp]
      · have hwp : ¬ w.1 = p := fun hc => hp hc.symm
        simp [hp, hwp]

theorem networkLoop_le (agentTurn : AgentState → AgentState) (n : Nat) (st : AgentState) :
    (networkLoop agentTurn n st).2 ≤ n ∧
    ((networkLoop agentTurn n st).1.summary ≠ "" ∨
      (networkLoop agentTurn n st).2 = n) := by
  induction n generalizing st with
  | zero => exact ⟨Nat.le_refl 0, Or.inr rfl⟩
  | succ n ih =>
    cases hr : router st with
    | none =>
      have hs : st.summary ≠ "" := by
        intro hc
        rw [router, if_neg (fun hne => hne hc)] at hr
        exact Option.noConfusion hr
      simp only [networkLoop, hr]
      exact ⟨Nat.zero_le _, Or.inl hs⟩
    | some a =>
      simp only [networkLoop, hr]
      refine ⟨Nat.succ_le_succ (ih (agentTurn st)).1, ?_⟩
      rcases (ih (agentTurn st)).2 with h | h
      · exact Or.inl h
      · exact Or.inr (by rw [h])

theorem isError_iff (st : AgentState) :
    isError st = true ↔ (st.summary = "" ∨ st.files = []) := by
  simp [isError, List.isEmpty_iff]

theorem isError_false_iff (st : AgentState) :
    isError st = false ↔ (st.summary ≠ "" ∧ st.files ≠ []) := by
  constructor
  · intro hf
    constructor
    · intro hc
      have ht : isError st = true := (isError_iff st).mpr (Or.inl hc)
      rw [hf] at ht
      exact Bool.noConfusion ht
    · intro hc
      have ht : isError st = true := (isError_iff st).mpr (Or.inr hc)
      rw [hf] at ht
      exact Bool.noConfusion ht
  · rintro ⟨h1, h2⟩
    cases hb : isError st with
    | false => rfl
    | true =>
      rcases (isError_iff st).mp hb with hc | hc
      · exact absurd hc h1
      · exact absurd hc h2

theorem lastWrite_eq_none_iff (ws : List (String × String)) (p : String) :
    lastWrite ws p = none ↔ p ∉ ws.map Prod.fst := by
  induction ws with
  | nil => simp [lastWrite]
  | cons w ws ih =>
    simp only [lastWrite, List.map_cons, List.mem_cons]
    cases hlw : lastWrite ws p with
    | some c =>
      have hmem : p ∈ ws.map Prod.fst := by
        by_contra hc
        rw [← ih] at hc
        rw [hc] at hlw
        exact Option.noConfusion hlw
      simp [hmem]
    | none =>
      have hnm : p ∉ ws.map Prod.fst := ih.mp hlw
      by_cases hp : w.1 = p
      · simp [hp, hnm]
      · have hpw : ¬ p = w.1 := fun hc => hp hc.symm
        simp [hp, hpw, hnm]

/-! ### Claim theorems -/

/-- C1: a run is classified as failed exactly when the final summary is empty
or the final file mapping has no entries; on failure the persisted message
has type `ERROR` and no fragment, on success type `RESULT` with exactly one
fragment carrying the sandbox URL, the title and the final file mapping, so
a fragment exists iff both the summary and the file set are non-empty. -/
theorem save_result_classification (projectId : String) (st : AgentState)
    (url resp ftitle : String) :
    (isError st = true ↔ (st.summary = "" ∨ st.files = [])) ∧
    (isError st = true →
      (saveResult projectId st url resp ftitle).type = "ERROR" ∧
      (saveResult projectId st url resp ftitle).fragment = none) ∧
    (isError st = false →
      (saveResult projectId st url resp ftitle).type = "RESULT" ∧
      (saveResult projectId st url resp ftitle).fragment =
        some { sandboxUrl := url, title := ftitle, files := st.files }) ∧
    ((saveResult projectId st url resp ftitle).fragment.isSome = true ↔
      (st.summary ≠ "" ∧ st.files ≠ [])) := by
  refine ⟨isError_iff st, ?_, ?_, ?_⟩
  · intro h
    simp [saveResult, h]
  · intro h
    simp [saveResult, h]
  · cases hb : isError st with
    | true =>
      have hor := (isError_iff st).mp hb
      simp [saveResult, hb]
      tauto
    | false =>
      have hand := (isError_false_iff st).mp hb
      simp [saveResult, hb]
      tauto

/-- Witness for C1 at concrete states: one successful, one failed. -/
theorem save_result_classification_witness :
    (saveResult "p" { summary := "done", files := [("a", "b")] } "u" "r" "t").type
      = "RESULT" ∧
    (saveResult "p" { summary := "", files := [] } "u" "r" "t").fragment = none :=
  ⟨((save_result_classification "p"
      { summary := "done", files := [("a", "b")] } "u" "r" "t").2.2.1 (by decide)).1,
   ((save_result_classification "p"
      { summary := "", files := [] } "u" "r" "t").2.1 (by decide)).2⟩

/-- C2 counterexample: an agent turn that writes a file but never sets a
summary produces a run that is classified as failed, yet the workflow's
return value carries the accumulated file contents — so partial file state
is exposed to the caller on failure. -/
def badTurn (st : AgentState) : AgentState :=
  { st with files := setFile st.files "app/page.tsx" "<h1>hi</h1>" }

theorem failure_exposes_files_cex :
    (runWorkflow "p" badTurn "host" "resp" "title").1.type = "ERROR" ∧
    (runWorkflow "p" badTurn "host" "resp" "title").2.files =
      [("app/page.tsx", "<h1>hi</h1>")] ∧
    (runWorkflow "p" badTurn "host" "resp" "title").2.files ≠ [] :=
  ⟨by decide, by decide, by decide⟩

/-- C2 (amended): on every run classified as failed the stored message
content is the fixed string "Something went wrong. Please try again." and
no fragment is persisted, but the workflow's return value still carries the
accumulated file mapping, so partial file state is exposed to the caller
whenever the mapping is non-empty at failure. -/
theorem failure_message_fixed (projectId : String) (st : AgentState)
    (url resp ftitle : String) (h : isError st = true) :
    (saveResult projectId st url resp ftitle).content =
      "Something went wrong. Please try again." ∧
    (saveResult projectId st url resp ftitle).fragment = none ∧
    (workflowReturn st url).files = st.files := by
  refine ⟨?_, ?_, rfl⟩ <;> simp [saveResult, h]

/-- Witness for the amended C2 at a concrete failed state. -/
theorem failure_message_fixed_witness :
    (saveResult "p" { summary := "", files := [] } "u" "r" "t").content =
      "Something went wrong. Please try again." :=
  (failure_message_fixed "p" { summary := "", files := [] } "u" "r" "t" (by decide)).1

/-- C3: once the shared summary is non-empty the router returns no next
agent; while it is empty the router selects the single configured
`codeAgent` again. -/
theorem router_selects_until_summary (st : AgentState) :
    (st.summary ≠ "" → router st = none) ∧
    (st.summary = "" → router st = some Agent.codeAgent) := by
  constructor
  · intro h
    rw [router, if_pos h]
  · intro h
    rw [router, if_neg (fun hne => hne h)]

/-- Witness for C3 at concrete states. -/
theorem router_selects_until_summary_witness :
    router { summary := "done", files := [] } = none ∧
    router { summary := "", files := [] } = some Agent.codeAgent :=
  ⟨(router_selects_until_summary { summary := "done", files := [] }).1 (by decide),
   (router_selects_until_summary { summary := "", files := [] }).2 rfl⟩

/-- C4: for any cap ≥ 1 the (total, hence always terminating) router loop
performs at most cap agent iterations, and ends either with the summary set
(completed) or with exactly cap iterations performed (capped), whatever
partial state accumulated. -/
theorem network_loop_bounded (agentTurn : AgentState → AgentState) (cap : Nat)
    (st : AgentState) (hcap : 1 ≤ cap) :
    (networkLoop agentTurn cap st).2 ≤ cap ∧
    ((networkLoop agentTurn cap st).1.summary ≠ "" ∨
      (networkLoop agentTurn cap st).2 = cap) :=
  networkLoop_le agentTurn cap st

/-- Witness for C4 at the configured cap of 15 and an agent that never sets
the summary. -/
theorem network_loop_bounded_witness :
    (networkLoop (fun st => st) 15 { summary := "", files := [] }).2 ≤ 15 ∧
    ((networkLoop (fun st => st) 15 { summary := "", files := [] }).1.summary ≠ "" ∨
      (networkLoop (fun st => st) 15 { summary := "", files := [] }).2 = 15) :=
  network_loop_bounded (fun st => st) 15 { summary := "", files := [] } (by decide)

/-- C5: the loaded prior-message context has at most 10 messages, equals the
reversal of the descending database fetch (take 10) mapped per record, is in
chronological (oldest first) order when the fetch is descending, and each
record becomes a text message whose role is assistant iff the stored role is
`ASSISTANT`. -/
theorem get_previous_messages_spec (db : List DbMessage)
    (hsorted : db.Pairwise (fun a b => b.createdAt ≤ a.createdAt)) :
    (getPreviousMessages db).length ≤ 10 ∧
    getPreviousMessages db = ((fetchedMessages db).reverse).map formatMessage ∧
    ((fetchedMessages db).reverse).Pairwise
      (fun a b => a.createdAt ≤ b.createdAt) ∧
    (∀ m : DbMessage, (formatMessage m).type = "text" ∧
      ((formatMessage m).role = "assistant" ↔ m.role = "ASSISTANT")) := by
  refine ⟨?_, ?_, ?_, ?_⟩
  · simp only [getPreviousMessages, fetchedMessages, List.length_reverse,
      List.length_map, List.length_take]
    omega
  · rw [getPreviousMessages, List.map_reverse]
  · rw [List.pairwise_reverse]
    exact hsorted.sublist (List.take_sublist 10 db)
  · intro m
    refine ⟨rfl, ?_⟩
    by_cases h : m.role = "ASSISTANT"
    · have hb : (m.role == "ASSISTANT") = true := beq_iff_eq.mpr h
      simp [formatMessage, hb, h]
    · have hb : ¬ (m.role == "ASSISTANT") = true := by
        simp only [beq_iff_eq]
        exact h
      simp [formatMessage, hb, h]

/-- Witness for C5 at a concrete one-row fetch. -/
theorem get_previous_messages_spec_witness :
    (getPreviousMessages
      [{ content := "hi", role := "USER", createdAt := 3 }]).length ≤ 10 :=
  (get_previous_messages_spec
    [{ content := "hi", role := "USER", createdAt := 3 }] (by simp)).1

/-- C6: after a `createOrUpdateFiles` call the shared mapping holds the last
written content for every written path, leaves every other path exactly as
before, and never removes a prior entry, so the mapping accumulates across
tool calls. -/
theorem createOrUpdateFiles_accumulates (fs ws : List (String × String))
    (p : String) :
    (getFile (writeFiles fs ws) p =
      match lastWrite ws p with
      | some c => some c
      | none => getFile fs p) ∧
    (lastWrite ws p = none ↔ p ∉ ws.map Prod.fst) ∧
    (∀ c : String, getFile fs p = some c →
      ∃ v, getFile (writeFiles fs ws) p = some v) := by
  refine ⟨getFile_writeFiles fs ws p, lastWrite_eq_none_iff ws p, ?_⟩
  intro c hc
  rw [getFile_writeFiles]
  cases hlw : lastWrite ws p with
  | some v => exact ⟨v, rfl⟩
  | none => exact ⟨c, hc⟩

/-- Witness for C6: a prior entry survives a write to a different path. -/
theorem createOrUpdateFiles_accumulates_witness :
    ∃ v, getFile (writeFiles [("a.txt", "old")] [("b.txt", "new")]) "a.txt"
      = some v :=
  (createOrUpdateFiles_accumulates [("a.txt", "old")] [("b.txt", "new")]
    "a.txt").2.2 "old" rfl

/-- C7: the terminal tool handler is a total function into strings — it
returns the command's standard output on success and the string
`Command failed: ` followed by the exception on failure, never propagating
the error. -/
theorem terminal_tool_never_propagates (r : CommandResult) (e : String) :
    terminalHandler (Except.ok r) = r.stdout ∧
    terminalHandler (Except.error e) = "Command failed: " ++ e :=
  ⟨rfl, rfl⟩

/-- C8: the workflow's return value is `{ url, title := "Fragment", files,
summary }` built from the final state, and on success it mirrors the
persisted fragment's sandbox URL and file mapping. -/
theorem workflow_return_mirrors_fragment (projectId : String) (st : AgentState)
    (url resp ftitle : String) :
    (workflowReturn st url).title = "Fragment" ∧
    (workflowReturn st url).url = url ∧
    (workflowReturn st url).files = st.files ∧
    (workflowReturn st url).summary = st.summary ∧
    (isError st = false →
      ∃ f, (saveResult projectId st url resp ftitle).fragment = some f ∧
        f.sandboxUrl = (workflowReturn st url).url ∧
        f.files = (workflowReturn st url).files) := by
  refine ⟨rfl, rfl, rfl, rfl, ?_⟩
  intro h
  refine ⟨{ sandboxUrl := url, title := ftitle, files := st.files }, ?_, rfl, rfl⟩
  simp [saveResult, h]

/-- Witness for C8 at a concrete successful state. -/
theorem workflow_return_mirrors_fragment_witness :
    ∃ f, (saveResult "p" { summary := "done", files := [("a", "b")] }
        "u" "r" "t").fragment = some f ∧
      f.sandboxUrl =
        (workflowReturn { summary := "done", files := [("a", "b")] } "u").url ∧
      f.files =
        (workflowReturn { summary := "done", files := [("a", "b")] } "u").files :=
  (workflow_return_mirrors_fragment "p" { summary := "done", files := [("a", "b")] }
    "u" "r" "t").2.2.2.2 (by decide)

/-- C9: the extraction routine returns the same literal text for a plain
string result and for the equivalent tagged/structured envelope, and is the
identity on already-plain input. -/
theorem parseAgentOutput_envelope_agnostic (t : String) :
    parseAgentOutput (AgentOutput.plain t) = t ∧
    parseAgentOutput (AgentOutput.tagged t) = parseAgentOutput (AgentOutput.plain t) :=
  ⟨rfl, rfl⟩

/-- C10: the sandbox URL is the scheme `https:` followed by a single
backslash and the host — never of the well-formed shape `https://` followed
by anything. -/
theorem sandbox_url_malformed (host : String) :
    sandboxUrl host = "https:" ++ "\\" ++ host ∧
    (∀ rest : String, sandboxUrl host ≠ "https://" ++ rest) := by
  refine ⟨rfl, ?_⟩
  intro rest h
  have h2 : ("https:\\" ++ host).data = ("https://" ++ rest).data :=
    congrArg String.data h
  rw [String.data_append, String.data_append] at h2
  have e1 : ("https:\\" : String).data = ['h', 't', 't', 'p', 's', ':', '\\'] := rfl
  have e2 : ("https://" : String).data = ['h', 't', 't', 'p', 's', ':', '/', '/'] := rfl
  rw [e1, e2] at h2
  simp at h2

/-- Witness for C10 at a concrete host. -/
theorem sandbox_url_malformed_witness :
    sandboxUrl "host" ≠ "https://" ++ "host" :=
  (sandbox_url_malformed "host").2 "host"

end CodeAssist
